import Mathlib

namespace UsNews

/-!
Verification development for the UsNewsToday Next.js repository.

The definitions below are shallow embeddings of the TypeScript/JavaScript
functions in `src/lib/api.ts`, `src/lib/security.ts`, `src/lib/cacheHeaders.ts`,
`src/middleware.ts`, `scripts/validate-env.js` and the environment-validation
module.  JavaScript strings are modelled as Lean `String`/`List Char`,
`undefined`/nullable values as `Option`, thrown exceptions as `Except`, and
the few platform primitives the code calls (regex split on whitespace,
single-character global replace, base64 decoding, `parseInt`, the WHATWG URL
constructor restricted to the scheme/host fields the code reads) are modelled
explicitly.
-/

/-- Model of the JavaScript regex class `\s` restricted to the ASCII
whitespace characters (the only ones the repository's inputs contain). -/
def isWsChar (c : Char) : Bool :=
  c = ' ' || c = '\t' || c = '\n' || c = '\r' || c = '\x0b' || c = '\x0c'

/-- One step of the right-to-left scan behind the `split(/\s+/)` model.  The
Boolean records whether the character immediately to the right was whitespace,
so that a maximal whitespace run opens exactly one new piece. -/
def splitWsStep (c : Char) : Bool × List (List Char) → Bool × List (List Char)
  | (wsRight, pieces) =>
    if isWsChar c then
      if wsRight then (true, pieces) else (true, [] :: pieces)
    else
      (false, match pieces with
        | [] => [[c]]
        | p :: ps => (c :: p) :: ps)

/-- Model of JavaScript `String.prototype.split(/\s+/)` on a character list:
the pieces between maximal whitespace runs, including an empty piece before a
leading run and after a trailing run (so `splitWs "a b ".data` is
`[['a'], ['b'], []]`, as in JS where `"a b ".split(/\s+/)` is `["a","b",""]`). -/
def splitWs (cs : List Char) : List (List Char) :=
  (cs.foldr splitWsStep (false, [[]])).2

/-- Embedding of `calculateReadingTime` (src/lib/api.ts:168-173).
`content : Option String` models `string | undefined`; the `!content` guard
is true for `undefined` and for the empty string; `Math.ceil (w / 200)` on a
natural number `w` is `(w + 199) / 200`. -/
def calculateReadingTime (content : Option String) : Nat :=
  match content with
  | none => 1
  | some s => if s = "" then 1 else ((splitWs s.data).length + 199) / 200

/-- The concrete input `"word ".repeat(400)`, built at the character level. -/
def wordRepeat400 : String :=
  ⟨(List.replicate 400 "word ".data).flatten⟩

/-! ## Content Gateway layer (src/lib/api.ts)

Each operation performs one GraphQL request inside a `try`/`catch`.  The
outcome of the underlying `graphqlClient.request` call is modelled as an
`Except GqlError payload` argument: `.ok` is a successful response (already
parsed into the payload shape the query returns) and `.error` is any
transport/parse exception the call can throw. -/

/-- A transport or parse error thrown by the GraphQL client. -/
def GqlError : Type := String

/-- The `pageInfo` object of a WPGraphQL connection. -/
structure PageInfo where
  hasNextPage : Bool
  endCursor : Option String
deriving DecidableEq

/-- A WPGraphQL connection: a list of nodes plus page info. -/
structure Conn (α : Type) where
  nodes : List α
  pageInfo : PageInfo
deriving DecidableEq

/-- The post fields the verified operations inspect. -/
structure Post where
  id : String
  slug : String
deriving DecidableEq

/-- A node of the all-posts-slugs query (slug and date). -/
structure PostRef where
  slug : String
  date : String
deriving DecidableEq

/-- The category fields the verified operations inspect. -/
structure WPCategory where
  id : String
  slug : String
deriving DecidableEq

/-- The author fields the verified operations inspect. -/
structure WPAuthor where
  slug : String
deriving DecidableEq

/-- The tag fields the verified operations inspect. -/
structure WPTag where
  slug : String
deriving DecidableEq

/-- Response payload with a `posts` connection (used by `GET_POSTS_QUERY`,
`SEARCH_POSTS_QUERY` and `GET_RELATED_POSTS_QUERY`). -/
structure PostsData where
  posts : Conn Post
deriving DecidableEq

/-- Response payload of `GET_POST_BY_SLUG_QUERY` (`data.postBy`, nullable). -/
structure PostBySlugData where
  postBy : Option Post
deriving DecidableEq

/-- Response payload of `GET_POSTS_BY_CATEGORY_QUERY` (`data.category`,
nullable). -/
structure CategoryData where
  category : Option WPCategory
deriving DecidableEq

/-- Response payload of `GET_CATEGORIES_QUERY` / `GET_ALL_CATEGORIES_SLUGS_QUERY`. -/
structure CategoriesData where
  categories : Conn WPCategory
deriving DecidableEq

/-- Response payload of `GET_AUTHOR_QUERY` (`data.userBy`, nullable). -/
structure AuthorData where
  userBy : Option WPAuthor
deriving DecidableEq

/-- Response payload of `GET_TAG_QUERY` (`data.tag`, nullable). -/
structure TagData where
  tag : Option WPTag
deriving DecidableEq

/-- Response payload of `GET_ALL_AUTHORS_SLUGS_QUERY` (`data.users`). -/
structure UsersData where
  users : Conn WPAuthor
deriving DecidableEq

/-- Response payload of `GET_ALL_TAGS_SLUGS_QUERY` (`data.tags`). -/
structure TagsData where
  tags : Conn WPTag
deriving DecidableEq

/-- Response payload of `GET_ALL_POSTS_SLUGS_QUERY` (`data.posts`). -/
structure PostRefsData where
  posts : Conn PostRef
deriving DecidableEq

/-- Embedding of `getPosts` (src/lib/api.ts:4-12). -/
def getPosts (r : Except GqlError PostsData) : Conn Post :=
  match r with
  | .ok d => d.posts
  | .error _ => ⟨[], ⟨false, none⟩⟩

/-- Embedding of `getPostBySlug` (src/lib/api.ts:14-22). -/
def getPostBySlug (r : Except GqlError PostBySlugData) : Option Post :=
  match r with
  | .ok d => d.postBy
  | .error _ => none

/-- Embedding of `getPostsByCategory` (src/lib/api.ts:24-32). -/
def getPostsByCategory (r : Except GqlError CategoryData) : Option WPCategory :=
  match r with
  | .ok d => d.category
  | .error _ => none

/-- Embedding of `getCategories` (src/lib/api.ts:34-42). -/
def getCategories (r : Except GqlError CategoriesData) : List WPCategory :=
  match r with
  | .ok d => d.categories.nodes
  | .error _ => []

/-- Embedding of `getAuthor` (src/lib/api.ts:44-52). -/
def getAuthor (r : Except GqlError AuthorData) : Option WPAuthor :=
  match r with
  | .ok d => d.userBy
  | .error _ => none

/-- Embedding of `getTag` (src/lib/api.ts:54-62). -/
def getTag (r : Except GqlError TagData) : Option WPTag :=
  match r with
  | .ok d => d.tag
  | .error _ => none

/-- Embedding of `searchPosts` (src/lib/api.ts:88-96). -/
def searchPosts (r : Except GqlError PostsData) : List Post :=
  match r with
  | .ok d => d.posts.nodes
  | .error _ => []

/-- Embedding of `getAllCategoriesSlugs` (src/lib/api.ts:138-146). -/
def getAllCategoriesSlugs (r : Except GqlError CategoriesData) : List String :=
  match r with
  | .ok d => d.categories.nodes.map WPCategory.slug
  | .error _ => []

/-- Embedding of `getAllAuthorsSlugs` (src/lib/api.ts:148-156). -/
def getAllAuthorsSlugs (r : Except GqlError UsersData) : List String :=
  match r with
  | .ok d => d.users.nodes.map WPAuthor.slug
  | .error _ => []

/-- Embedding of `getAllTagsSlugs` (src/lib/api.ts:158-166). -/
def getAllTagsSlugs (r : Except GqlError TagsData) : List String :=
  match r with
  | .ok d => d.tags.nodes.map WPTag.slug
  | .error _ => []

/-! ### The full cursor walk (src/lib/api.ts:98-136)

`getAllPostsSlugs` / `getAllPostsWithDates` run
`while (hasNextPage) { request(after); push nodes; hasNextPage := pageInfo.hasNextPage; after := pageInfo.endCursor }`
inside one `try`/`catch` whose handler returns `[]`.  The loop is embedded
with an explicit fuel bound: `none` means the loop performed that many
iterations without exiting, i.e. no finite bound makes it terminate when the
result is `none` for every fuel value.  A thrown request error aborts the
loop and yields `some []` (the catch handler). -/
def postsWalk (upstream : Option String → Except GqlError PostRefsData) :
    Nat → Option String → List PostRef → Option (List PostRef)
  | 0, _, _ => none
  | fuel + 1, after, acc =>
    match upstream after with
    | .error _ => some []
    | .ok d =>
      let acc2 := acc ++ d.posts.nodes
      if d.posts.pageInfo.hasNextPage then
        postsWalk upstream fuel d.posts.pageInfo.endCursor acc2
      else
        some acc2

/-- Embedding of `getAllPostsSlugs` (src/lib/api.ts:98-116), fuel-bounded. -/
def getAllPostsSlugsFuel (upstream : Option String → Except GqlError PostRefsData)
    (fuel : Nat) : Option (List String) :=
  (postsWalk upstream fuel none []).map (List.map PostRef.slug)

/-- Embedding of `getAllPostsWithDates` (src/lib/api.ts:118-136), fuel-bounded. -/
def getAllPostsWithDatesFuel (upstream : Option String → Except GqlError PostRefsData)
    (fuel : Nat) : Option (List PostRef) :=
  postsWalk upstream fuel none []

/-- The adversarial upstream of the termination claim: every request is
answered with `hasNextPage = true` and `endCursor = null`. -/
def nullCursorUpstream : Option String → Except GqlError PostRefsData :=
  fun _ => .ok ⟨⟨[], ⟨true, none⟩⟩⟩

/-! ### Identifier decoding for related posts (src/lib/api.ts:64-86) -/

/-- Value of a character in the standard base64 alphabet; `none` for
characters Node's base64 decoder ignores. -/
def b64Val (c : Char) : Option Nat :=
  if 'A' ≤ c ∧ c ≤ 'Z' then some (c.toNat - 65)
  else if 'a' ≤ c ∧ c ≤ 'z' then some (c.toNat - 97 + 26)
  else if '0' ≤ c ∧ c ≤ '9' then some (c.toNat - 48 + 52)
  else if c = '+' then some 62
  else if c = '/' then some 63
  else none

/-- Reassemble bytes from 6-bit base64 values, Node style: groups of four
give three bytes, a trailing group of three gives two, of two gives one, and
a single leftover value is dropped. -/
def b64Bytes : List Nat → List Nat
  | v0 :: v1 :: v2 :: v3 :: rest =>
    (v0 * 4 + v1 / 16) :: ((v1 % 16) * 16 + v2 / 4) :: ((v2 % 4) * 64 + v3) :: b64Bytes rest
  | [v0, v1, v2] => [v0 * 4 + v1 / 16, (v1 % 16) * 16 + v2 / 4]
  | [v0, v1] => [v0 * 4 + v1 / 16]
  | _ => []

/-- Model of `Buffer.from(s, 'base64').toString()` for ASCII payloads (the
composite WPGraphQL ids such as `post:123` are ASCII).  It never throws:
invalid characters are skipped, not rejected. -/
def decodeBase64 (s : String) : String :=
  ⟨(b64Bytes (s.data.filterMap b64Val)).map (fun b => Char.ofNat b)⟩

/-- Model of JavaScript `String.prototype.split(sep)` for a single-character
separator. -/
def splitOnCharGo (sep : Char) (acc : List Char) : List Char → List (List Char)
  | [] => [acc.reverse]
  | c :: rest =>
    if c = sep then acc.reverse :: splitOnCharGo sep [] rest
    else splitOnCharGo sep (c :: acc) rest

/-- `splitOnChar ':' "a:b".data = [['a'], ['b']]`, as in JS `"a:b".split(':')`. -/
def splitOnChar (sep : Char) (l : List Char) : List (List Char) :=
  splitOnCharGo sep [] l

/-- Model of JavaScript `parseInt` on a string argument: skip leading
whitespace, optional sign, then a maximal run of decimal digits; `none`
models `NaN`. -/
def jsParseIntDigits (l : List Char) : Option Nat :=
  let d := l.takeWhile Char.isDigit
  if d = [] then none
  else some (d.foldl (fun a c => a * 10 + (c.toNat - 48)) 0)

/-- JavaScript `parseInt(s)` (decimal, no radix argument, `NaN ↦ none`). -/
def jsParseInt (s : String) : Option Int :=
  match s.data.dropWhile isWsChar with
  | '-' :: rest => (jsParseIntDigits rest).map (fun n => -(n : Int))
  | '+' :: rest => (jsParseIntDigits rest).map (fun n => (n : Int))
  | t => (jsParseIntDigits t).map (fun n => (n : Int))

/-- The string `parseInt` is applied to in `getRelatedPosts`:
`Buffer.from(x, 'base64').toString().split(':')[1] || x` — the second
colon-separated component of the decoded id, falling back to the raw
identifier when that component is absent or empty (JS `||` on a falsy
string). -/
def decodedIdSource (s : String) : String :=
  match (splitOnChar ':' (decodeBase64 s).data).get? 1 with
  | some piece => if piece = [] then s else ⟨piece⟩
  | none => s

/-- Embedding of the id normalisation in `getRelatedPosts`
(src/lib/api.ts:72-73); total, hence never crashes. -/
def parseGraphqlId (s : String) : Option Int :=
  jsParseInt (decodedIdSource s)

/-- Embedding of `getRelatedPosts` (src/lib/api.ts:64-86): on success the
nodes are filtered by `post.id !== excludeId` (raw string comparison); any
error yields `[]`. -/
def getRelatedPosts (r : Except GqlError PostsData) (excludeId : String) : List Post :=
  match r with
  | .ok d => d.posts.nodes.filter (fun p => p.id != excludeId)
  | .error _ => []

/-! ## Shared string utilities (models of JS string primitives) -/

/-- `startsWithL l p` models JS `String.prototype.startsWith`: `p` is a
prefix of `l`. -/
def startsWithL (l p : List Char) : Bool :=
  match p, l with
  | [], _ => true
  | _ :: _, [] => false
  | q :: qs, c :: cs => c = q && startsWithL cs qs

/-- `endsWithL l p`: `p` is a suffix of `l` (models the `$`-anchored regex
tests and JS `endsWith`). -/
def endsWithL (l p : List Char) : Bool :=
  startsWithL l.reverse p.reverse

/-- `containsSub pat l`: `pat` occurs contiguously in `l` (models JS
`String.prototype.includes`). -/
def containsSub (pat : List Char) : List Char → Bool
  | [] => startsWithL [] pat
  | c :: rest => startsWithL (c :: rest) pat || containsSub pat rest

/-- Replace every occurrence of the single character `tgt` by `rep` (models
JS `replace(/c/g, rep)` for a one-character pattern). -/
def replaceCharAll (tgt : Char) (rep : List Char) : List Char → List Char
  | [] => []
  | c :: rest => (if c = tgt then rep else [c]) ++ replaceCharAll tgt rep rest

/-- Replace the FIRST occurrence of `pat` by `rep` (models JS
`replace(pat, rep)` with a plain string pattern). -/
def replaceFirstL (pat rep : List Char) : List Char → List Char
  | [] => if pat = [] then rep else []
  | c :: rest =>
    if startsWithL (c :: rest) pat then
      rep ++ (c :: rest).drop pat.length
    else
      c :: replaceFirstL pat rep rest

/-- Model of JS `String.prototype.trim` (restricted to ASCII whitespace). -/
def trimL (l : List Char) : List Char :=
  ((l.dropWhile isWsChar).reverse.dropWhile isWsChar).reverse

/-- Lowercase a character list (models JS `toLowerCase` for ASCII). -/
def toLowerL (l : List Char) : List Char :=
  l.map Char.toLower

/-- Model of JS `Array.prototype.join(', ')`. -/
def joinCommaSp : List String → String
  | [] => ""
  | [x] => x
  | x :: y :: xs => x ++ ", " ++ joinCommaSp (y :: xs)

/-! ## URL model (the WHATWG `URL` constructor, restricted)

`src/lib/security.ts` reads only `protocol` and `hostname` of parsed URLs.
The model below covers the hierarchical `scheme://host…` shapes, opaque
`scheme:…` URLs, protocol-relative `//host…` references and relative
references resolved against a base; `protocol` carries the trailing `:` as
in the DOM API. -/

/-- The scheme/host projection of a parsed URL. -/
structure URLParts where
  protocol : String
  hostname : String
deriving DecidableEq

/-- Characters allowed in a scheme after the first (which must be a
letter). -/
def isSchemeTailChar (c : Char) : Bool :=
  c.isAlphanum || c = '+' || c = '-' || c = '.'

/-- A syntactically valid URL scheme. -/
def validScheme : List Char → Bool
  | [] => false
  | c :: rest => c.isAlpha && rest.all isSchemeTailChar

/-- Split `l` at its first `':'`: scheme candidate and remainder; `none`
when `l` has no colon. -/
def schemeSplit (l : List Char) : Option (List Char × List Char) :=
  let pre := l.takeWhile (fun c => c ≠ ':')
  if pre.length = l.length then none else some (pre, l.drop (pre.length + 1))

/-- A character ending the authority component. -/
def isAuthorityEnd (c : Char) : Bool :=
  c = '/' || c = '?' || c = '#'

/-- Extract the hostname from the text following `//`: take the authority,
drop userinfo (after the last `@`) and the port (after `:`). -/
def authorityHost (l : List Char) : List Char :=
  let auth := l.takeWhile (fun c => !isAuthorityEnd c)
  let afterUser := (splitOnChar '@' auth).getLastD []
  afterUser.takeWhile (fun c => c ≠ ':')

/-- Model of `new URL(s)` (no base): absolute URLs only. -/
def parseURLAbs (s : String) : Option URLParts :=
  match schemeSplit s.data with
  | none => none
  | some (schemeRaw, rest) =>
    if validScheme schemeRaw then
      if startsWithL rest "//".data then
        let host := authorityHost (rest.drop 2)
        if host = [] then none
        else some ⟨⟨toLowerL schemeRaw ++ [':']⟩, ⟨toLowerL host⟩⟩
      else
        some ⟨⟨toLowerL schemeRaw ++ [':']⟩, ""⟩
    else none

/-- Model of `new URL(url, base)`: an absolute `url` stands alone, a
protocol-relative `//host…` takes the base's scheme, and any other (relative)
reference keeps the base's scheme and host. -/
def parseURLWithBase (url base : String) : Option URLParts :=
  let absolute :=
    match schemeSplit url.data with
    | some (schemeRaw, _) => validScheme schemeRaw
    | none => false
  if absolute then
    parseURLAbs url
  else if startsWithL url.data "//".data then
    match parseURLAbs base with
    | none => none
    | some b =>
      let host := authorityHost (url.data.drop 2)
      if host = [] then none else some ⟨b.protocol, ⟨toLowerL host⟩⟩
  else
    parseURLAbs base

/-- `url` is a plain relative reference (no valid scheme, not
protocol-relative): resolving it keeps the base's scheme and host. -/
def isRelativeRef (url : String) : Bool :=
  (match schemeSplit url.data with
    | some (schemeRaw, _) => !validScheme schemeRaw
    | none => true)
  && !startsWithL url.data "//".data

/-- The origin scan of `isValidRedirectUrl`: `allowedOrigins.some(...)` where
the callback parses each origin with `new URL(origin)`.  A parse failure
there throws out of `some`, is caught by the surrounding `catch`, and makes
the whole call return `false` — hence the scan aborts with `false`. -/
def checkOrigins (parsed : URLParts) : List String → Bool
  | [] => false
  | o :: rest =>
    match parseURLAbs o with
    | none => false
    | some a =>
      if parsed.protocol = a.protocol ∧ parsed.hostname = a.hostname then true
      else checkOrigins parsed rest

/-- Embedding of `isValidRedirectUrl` (src/lib/security.ts:147-157):
parse `url` against the fixed placeholder base `http://localhost`, then
accept iff some allowed origin has the same protocol and hostname; any
parse failure yields `false`. -/
def isValidRedirectUrl (url : String) (allowedOrigins : List String) : Bool :=
  match parseURLWithBase url "http://localhost" with
  | none => false
  | some parsed => checkOrigins parsed allowedOrigins

/-! ## sanitizeInput (src/lib/security.ts:163-175) -/

/-- A JS argument that is either a string or some non-string value (the
`typeof input !== 'string'` branch). -/
inductive JsArg where
  | str (s : String)
  | notStr
deriving DecidableEq

/-- Embedding of `sanitizeInput`: the six sequential global replaces of the
source, in source order (`&` first, then `<`, `>`, `"`, `'`, `/`); a
non-string argument yields `''`. -/
def sanitizeInput (input : JsArg) : String :=
  match input with
  | .notStr => ""
  | .str s =>
    ⟨replaceCharAll '/' "&#x2F;".data
      (replaceCharAll '\'' "&#x27;".data
        (replaceCharAll '"' "&quot;".data
          (replaceCharAll '>' "&gt;".data
            (replaceCharAll '<' "&lt;".data
              (replaceCharAll '&' "&amp;".data s.data)))))⟩

/-- The six characters `sanitizeInput` escapes. -/
def escapedChars : List Char :=
  ['&', '<', '>', '"', '\'', '/']

/-- Character-wise description of the sanitizer. -/
def sanitizeChar (c : Char) : List Char :=
  if c = '&' then "&amp;".data
  else if c = '<' then "&lt;".data
  else if c = '>' then "&gt;".data
  else if c = '"' then "&quot;".data
  else if c = '\'' then "&#x27;".data
  else if c = '/' then "&#x2F;".data
  else [c]

/-- Character-wise sanitizer on lists. -/
def sanitizeCharwise (l : List Char) : List Char :=
  (l.map sanitizeChar).flatten

/-- The entity strings the sanitizer can emit. -/
def entityList : List (List Char) :=
  ["&amp;".data, "&lt;".data, "&gt;".data, "&quot;".data, "&#x27;".data, "&#x2F;".data]

/-- Scan for unescaped ampersands: every `'&'` in the list must start one of
the emitted entities. -/
def ampEscaped : List Char → Bool
  | [] => true
  | c :: rest =>
    (if c = '&' then entityList.any (fun e => startsWithL (c :: rest) e) else true)
      && ampEscaped rest

/-- The composite of the six replaces, innermost (`&`) first. -/
def sanitizeChain (l : List Char) : List Char :=
  replaceCharAll '/' "&#x2F;".data
    (replaceCharAll '\'' "&#x27;".data
      (replaceCharAll '"' "&quot;".data
        (replaceCharAll '>' "&gt;".data
          (replaceCharAll '<' "&lt;".data
            (replaceCharAll '&' "&amp;".data l)))))

/-! ## Claims about the Content Gateway layer -/

/-! ## Claims about src/lib/security.ts -/

/-! ## Environment-variable validation

Two implementations exist in the repository: the TypeScript module
(`validateEnvVars` of the env-validation module) and the simplified
build-time JavaScript script (`scripts/validate-env.js`).  They differ in
what a required-but-missing variable contributes to the result. -/

/-- One entry of the `REQUIRED_ENV_VARS` configuration. -/
structure EnvSpec where
  name : String
  required : Bool
  validate : String → Bool
  errorMessage : String
  description : String

/-- The result shape of `validateEnvVars` (both versions): `errors` holds
`(variable, message)` pairs. -/
structure ValidationOut where
  isValid : Bool
  errors : List (String × String)
  warnings : List String
  missingVariables : List String
deriving DecidableEq

/-- The TS missing test: `!value || value.trim() === ''` (absent, empty, or
whitespace-only). -/
def isMissingTS (v : Option String) : Bool :=
  match v with
  | none => true
  | some s => s = "" || trimL s.data = []

/-- The JS missing test: `value === undefined || value === ''`. -/
def isMissingJS (v : Option String) : Bool :=
  match v with
  | none => true
  | some s => s = ""

/-- The loop body of the TS `validateEnvVars`, processing the entries in
order (head first). -/
def runSpecsTS (vars : String → Option String) :
    List EnvSpec → List (String × String) × List String × List String
  | [] => ([], [], [])
  | spec :: rest =>
    let tail := runSpecsTS vars rest
    if isMissingTS (vars spec.name) then
      if spec.required then
        ((spec.name, "Required environment variable missing: " ++ spec.name
            ++ " (" ++ spec.description ++ ")") :: tail.1,
          tail.2.1, spec.name :: tail.2.2)
      else
        (tail.1, ("Optional variable not set: " ++ spec.name) :: tail.2.1, tail.2.2)
    else
      if spec.validate ((vars spec.name).getD "") then tail
      else ((spec.name, "Invalid value for " ++ spec.name ++ ": "
          ++ spec.errorMessage) :: tail.1, tail.2.1, tail.2.2)

/-- Embedding of the TypeScript `validateEnvVars` (env-validation module
lines 107-144): a required missing variable is pushed to BOTH `errors` and
`missingVariables`; `isValid` is `errors.length === 0`. -/
def validateEnvVarsTS (specs : List EnvSpec) (vars : String → Option String) :
    ValidationOut :=
  let r := runSpecsTS vars specs
  ⟨r.1.isEmpty, r.1, r.2.1, r.2.2⟩

/-- The loop body of the JS `validateEnvVars`
(scripts/validate-env.js:87-108). -/
def runSpecsJS (vars : String → Option String) :
    List EnvSpec → List (String × String) × List String × List String
  | [] => ([], [], [])
  | spec :: rest =>
    let tail := runSpecsJS vars rest
    if spec.required && isMissingJS (vars spec.name) then
      (tail.1, tail.2.1, spec.name :: tail.2.2)
    else if !spec.required && isMissingJS (vars spec.name) then
      tail
    else
      if spec.validate ((vars spec.name).getD "") then tail
      else ((spec.name, spec.errorMessage) :: tail.1, tail.2.1, tail.2.2)

/-- Embedding of the JavaScript `validateEnvVars`
(scripts/validate-env.js:82-116): a required missing variable is pushed ONLY
to `missingVariables` (the loop `continue`s before touching `errors`);
`isValid` is `errors.length === 0 && missing.length === 0`. -/
def validateEnvVarsJS (specs : List EnvSpec) (vars : String → Option String) :
    ValidationOut :=
  let r := runSpecsJS vars specs
  ⟨r.1.isEmpty && r.2.2.isEmpty, r.1, r.2.1, r.2.2⟩

/-- Mask the validator of every entry whose value fails the given missing
test: used to state that validators of missing variables are never
invoked. -/
def maskValidators (missingChk : Option String → Bool)
    (vars : String → Option String) (specs : List EnvSpec) : List EnvSpec :=
  specs.map (fun e =>
    if missingChk (vars e.name) then { e with validate := fun _ => false } else e)

/-- URL-shaped validator of `WPGRAPHQL_ENDPOINT` and `SITE_URL`
(`new URL(value)` succeeding). -/
def isUrlShaped (v : String) : Bool :=
  (parseURLAbs v).isSome

/-- Validator of the GA measurement id: `/^G-[A-Z0-9]+$/`. -/
def gaIdFormat (v : String) : Bool :=
  startsWithL v.data "G-".data && !(v.data.drop 2).isEmpty
    && (v.data.drop 2).all (fun c => c.isUpper || c.isDigit)

/-- The TS `REQUIRED_ENV_VARS` table (env-validation module lines 8-90). -/
def REQUIRED_ENV_VARS_TS : List EnvSpec :=
  [⟨"WPGRAPHQL_ENDPOINT", true, isUrlShaped,
    "Must be a valid URL to WordPress GraphQL endpoint",
    "WordPress GraphQL API endpoint URL"⟩,
   ⟨"REVALIDATE_SECRET", true, fun v => 8 ≤ v.length,
    "Must be at least 8 characters long",
    "Secret key for ISR/on-demand revalidation"⟩,
   ⟨"SITE_URL", true, isUrlShaped, "Must be a valid URL", "Production site URL"⟩,
   ⟨"SITE_TITLE", true, fun v => 0 < v.length, "Cannot be empty", "Website title"⟩,
   ⟨"SITE_DESCRIPTION", true, fun v => 0 < v.length, "Cannot be empty",
    "Website description"⟩,
   ⟨"SITE_NAME", true, fun v => 0 < v.length, "Cannot be empty", "Website name"⟩,
   ⟨"SITE_COPYRIGHT", true, fun v => 0 < v.length, "Cannot be empty",
    "Copyright notice"⟩,
   ⟨"PUBLIC_GA_ID", false, gaIdFormat, "Must be in format G-XXXXXXXXXX",
    "Google Analytics 4 ID"⟩,
   ⟨"PUBLIC_GA_DEBUG", false,
    fun v => toLowerL v.data = "true".data || toLowerL v.data = "false".data,
    "Must be \"true\" or \"false\"", "Enable GA debug logging"⟩]

/-- The JS `REQUIRED_ENV_VARS` table (scripts/validate-env.js:6-79); the
optional validators carry the JS `!value || …` truthiness guards. -/
def REQUIRED_ENV_VARS_JS : List EnvSpec :=
  [⟨"WPGRAPHQL_ENDPOINT", true, isUrlShaped,
    "Must be a valid URL to WordPress GraphQL endpoint", ""⟩,
   ⟨"REVALIDATE_SECRET", true, fun v => v ≠ "" && 8 ≤ v.length,
    "Must be at least 8 characters long", ""⟩,
   ⟨"SITE_URL", true, isUrlShaped, "Must be a valid URL", ""⟩,
   ⟨"SITE_TITLE", true, fun v => v ≠ "" && 0 < v.length, "Cannot be empty", ""⟩,
   ⟨"SITE_DESCRIPTION", true, fun v => v ≠ "" && 0 < v.length, "Cannot be empty", ""⟩,
   ⟨"SITE_NAME", true, fun v => v ≠ "" && 0 < v.length, "Cannot be empty", ""⟩,
   ⟨"SITE_COPYRIGHT", true, fun v => v ≠ "" && 0 < v.length, "Cannot be empty", ""⟩,
   ⟨"NEXT_PUBLIC_GA_MEASUREMENT_ID", false, fun v => v = "" || gaIdFormat v,
    "Must be in format G-XXXXXXXXXX", ""⟩,
   ⟨"PUBLIC_GA_DEBUG", false, fun v => v = "" || v = "true" || v = "false",
    "Must be \"true\" or \"false\"", ""⟩]

/-- The environment with no variables set. -/
def emptyEnv : String → Option String := fun _ => none

/-! ## Cache-control header formatting (src/lib/cacheHeaders.ts) -/

/-- A cache configuration preset (`staleIfError` optional). -/
structure CacheConfig where
  maxAge : Nat
  sMaxAge : Nat
  staleWhileRevalidate : Nat
  staleIfError : Option Nat := none
deriving DecidableEq

/-- Embedding of `formatCacheControl` (src/lib/cacheHeaders.ts:59-72): the
four fixed parts, plus a `stale-if-error` part exactly when
`config.staleIfError` is truthy (present AND non-zero — JS
`if (config.staleIfError)`), joined by `', '`. -/
def formatCacheControl (c : CacheConfig) : String :=
  joinCommaSp
    (["public",
      "max-age=" ++ toString c.maxAge,
      "s-maxage=" ++ toString c.sMaxAge,
      "stale-while-revalidate=" ++ toString c.staleWhileRevalidate]
      ++ (if c.staleIfError.getD 0 ≠ 0 then
            ["stale-if-error=" ++ toString (c.staleIfError.getD 0)]
          else []))

/-- The rendering without the optional clause (what the spec calls
`public, max-age=…, s-maxage=…, stale-while-revalidate=…`). -/
def cacheBase (c : CacheConfig) : String :=
  joinCommaSp
    ["public",
     "max-age=" ++ toString c.maxAge,
     "s-maxage=" ++ toString c.sMaxAge,
     "stale-while-revalidate=" ++ toString c.staleWhileRevalidate]

/-- `CACHE_CONFIGS.html` (the page class). -/
def CACHE_CONFIGS_html : CacheConfig := ⟨3600, 86400, 604800, some 2592000⟩

/-- `CACHE_CONFIGS.assets` (the asset class). -/
def CACHE_CONFIGS_assets : CacheConfig := ⟨31536000, 31536000, 31536000, none⟩

/-- `CACHE_CONFIGS.images`. -/
def CACHE_CONFIGS_images : CacheConfig := ⟨2592000, 2592000, 2592000, none⟩

/-- `CACHE_CONFIGS.api`. -/
def CACHE_CONFIGS_api : CacheConfig := ⟨300, 300, 600, none⟩

/-- `CACHE_CONFIGS.analytics`. -/
def CACHE_CONFIGS_analytics : CacheConfig := ⟨0, 0, 0, none⟩

/-! ## Middleware (src/middleware.ts) -/

/-- `SECURITY_HEADERS` (src/lib/security.ts:85-109), in insertion order. -/
def SECURITY_HEADERS : List (String × String) :=
  [("X-Frame-Options", "DENY"),
   ("X-Content-Type-Options", "nosniff"),
   ("X-XSS-Protection", "1; mode=block"),
   ("Strict-Transport-Security", "max-age=31536000; includeSubDomains; preload"),
   ("Referrer-Policy", "strict-origin-when-cross-origin"),
   ("Permissions-Policy", "camera=(), microphone=(), geolocation=(self), payment=()"),
   ("Server", "Apache"),
   ("Cache-Control", "public, max-age=31536000, immutable")]

/-- `response.headers.set`: point update of the header map. -/
def setHeader (h : String → Option String) (k v : String) : String → Option String :=
  fun q => if q = k then some v else h q

/-- The extensions of the asset regex
`/\.(js|css|png|jpg|jpeg|svg|gif|webp)$/`. -/
def assetExtList : List String :=
  [".js", ".css", ".png", ".jpg", ".jpeg", ".svg", ".gif", ".webp"]

/-- The pathname matches the asset regex: it ends with a dot followed by one
of the listed extensions. -/
def isAssetPath (p : String) : Bool :=
  assetExtList.any (fun e => endsWithL p.data e.data)

/-- Embedding of `middleware` (src/middleware.ts:5-26): starting from the
base response headers, set every `SECURITY_HEADERS` entry in order, then set
`Cache-Control` according to the pathname (asset extension / `/api/` prefix /
everything else). -/
def middleware (base : String → Option String) (pathname : String) :
    String → Option String :=
  let afterSec := SECURITY_HEADERS.foldl (fun h kv => setHeader h kv.1 kv.2) base
  if isAssetPath pathname then
    setHeader afterSec "Cache-Control" "public, max-age=31536000, immutable"
  else if startsWithL pathname.data "/api/".data then
    setHeader afterSec "Cache-Control" "public, max-age=300, s-maxage=300"
  else
    setHeader afterSec "Cache-Control" "public, max-age=3600, s-maxage=86400"

/-- The path-determined Cache-Control value of the middleware. -/
def cacheControlFor (pathname : String) : String :=
  if isAssetPath pathname then "public, max-age=31536000, immutable"
  else if startsWithL pathname.data "/api/".data then "public, max-age=300, s-maxage=300"
  else "public, max-age=3600, s-maxage=86400"

/-! ## CSP header construction (src/lib/security.ts:16-80, 114-134) -/

/-- The per-source substitution inside `buildCSPHeader`: replace the first
`{NONCE}` placeholder when the source mentions it AND a (truthy, i.e.
non-empty) nonce was supplied; a `process.env.`-prefixed source is returned
unchanged ("handled server-side"); everything else is returned as is. -/
def substSource (nonce : Option String) (src : String) : String :=
  if containsSub "{NONCE}".data src.data && (nonce.getD "" != "") then
    ⟨replaceFirstL "{NONCE}".data (nonce.getD "").data src.data⟩
  else if startsWithL src.data "process.env.".data then
    src
  else src

/-- `Array.prototype.join(sep)` on character lists (right-nested). -/
def joinSepL (sep : List Char) : List (List Char) → List Char
  | [] => []
  | [x] => x
  | x :: y :: xs => x ++ (sep ++ joinSepL sep (y :: xs))

/-- One directive of the CSP header:
```${directive} ${sources.join(' ')}`.trim()``. -/
def renderDirective (nonce : Option String) (e : String × List String) : List Char :=
  trimL (e.1.data ++ ' ' :: joinSepL " ".data (e.2.map (fun s => (substSource nonce s).data)))

/-- Embedding of `buildCSPHeader` (src/lib/security.ts:114-134): render each
directive and join them with `'; '`. -/
def buildCSPHeader (cfg : List (String × List String)) (nonce : Option String) : String :=
  ⟨joinSepL "; ".data (cfg.map (renderDirective nonce))⟩

/-- `CSP_HEADERS` (src/lib/security.ts:16-80), in insertion order. -/
def CSP_HEADERS : List (String × List String) :=
  [("script-src",
    ["'self'", "'nonce-{NONCE}'", "https://www.googletagmanager.com",
     "https://www.google-analytics.com", "https://cdn.jsdelivr.net"]),
   ("style-src",
    ["'self'", "'unsafe-inline'", "https://fonts.googleapis.com",
     "https://cdn.jsdelivr.net"]),
   ("font-src", ["'self'", "https://fonts.gstatic.com", "data:"]),
   ("img-src",
    ["'self'", "data:", "https:", "https://www.googletagmanager.com",
     "https://www.google-analytics.com", "https://www.facebook.com"]),
   ("connect-src",
    ["'self'", "https://www.google-analytics.com",
     "https://www.googletagmanager.com", "https://region1.google-analytics.com",
     "process.env.WPGRAPHQL_ENDPOINT"]),
   ("frame-src", ["'none'"]),
   ("object-src", ["'none'"]),
   ("media-src", ["'self'"]),
   ("default-src", ["'self'"]),
   ("form-action", ["'self'"]),
   ("frame-ancestors", ["'none'"]),
   ("upgrade-insecure-requests", [])]

/-! ## Theorems -/

theorem foldr_splitWsStep_chunk (pieces : List (List Char)) :
    List.foldr splitWsStep (false, pieces) "word ".data
      = (false, "word".data :: pieces) := rfl

theorem foldr_splitWsStep_replicate :
    ∀ n : Nat,
      List.foldr splitWsStep (false, [[]]) (List.replicate n "word ".data).flatten
        = (false, List.replicate n "word".data ++ [[]]) := by
  intro n
  induction n with
  | zero => rfl
  | succ n ih =>
    rw [List.replicate_succ, List.flatten_cons, List.foldr_append, ih,
      foldr_splitWsStep_chunk]
    rfl

theorem splitWs_wordRepeat400 :
    splitWs wordRepeat400.data = List.replicate 400 "word".data ++ [[]] := by
  show (List.foldr splitWsStep (false, [[]])
      (List.replicate 400 "word ".data).flatten).2 = _
  rw [foldr_splitWsStep_replicate]

theorem wordRepeat400_ne_empty : wordRepeat400 ≠ "" := by
  intro h
  have hdata : (List.replicate 400 "word ".data).flatten = ([] : List Char) :=
    congrArg String.data h
  have hmem : "word ".data ∈ List.replicate 400 "word ".data :=
    List.mem_replicate.mpr ⟨by decide, rfl⟩
  have := (List.flatten_eq_nil_iff.mp hdata) _ hmem
  simp at this

theorem calculateReadingTime_wordRepeat400 :
    calculateReadingTime (some wordRepeat400) = 3 := by
  show (if wordRepeat400 = "" then 1
    else ((splitWs wordRepeat400.data).length + 199) / 200) = 3
  rw [if_neg wordRepeat400_ne_empty, splitWs_wordRepeat400]
  rw [List.length_append, List.length_replicate]
  norm_num

theorem splitWsStep_length_pos (c : Char) (st : Bool × List (List Char))
    (h : 1 ≤ st.2.length) : 1 ≤ (splitWsStep c st).2.length := by
  obtain ⟨b, pieces⟩ := st
  match pieces with
  | [] => simp at h
  | p :: ps =>
    by_cases hc : isWsChar c
    · by_cases hb : b <;> simp [splitWsStep, hc, hb]
    · simp [splitWsStep, hc]

theorem splitWs_length_pos (cs : List Char) : 1 ≤ (splitWs cs).length := by
  unfold splitWs
  induction cs with
  | nil => simp
  | cons c rest ih =>
    exact splitWsStep_length_pos c _ ih

theorem postsWalk_nullCursor_none :
    ∀ (fuel : Nat) (after : Option String) (acc : List PostRef),
      postsWalk nullCursorUpstream fuel after acc = none := by
  intro fuel
  induction fuel with
  | zero => intro after acc; rfl
  | succ n ih => intro after acc; exact ih none (acc ++ [])

theorem startsWithL_append_self (p x : List Char) :
    startsWithL (p ++ x) p = true := by
  induction p with
  | nil => simp [startsWithL]
  | cons c cs ih => simp [startsWithL, ih]

theorem replaceCharAll_append (tgt : Char) (rep a b : List Char) :
    replaceCharAll tgt rep (a ++ b)
      = replaceCharAll tgt rep a ++ replaceCharAll tgt rep b := by
  induction a with
  | nil => rfl
  | cons c cs ih => simp [replaceCharAll, ih]

theorem sanitizeChain_append (a b : List Char) :
    sanitizeChain (a ++ b) = sanitizeChain a ++ sanitizeChain b := by
  unfold sanitizeChain
  rw [replaceCharAll_append, replaceCharAll_append, replaceCharAll_append,
    replaceCharAll_append, replaceCharAll_append, replaceCharAll_append]

theorem sanitizeChain_single (c : Char) : sanitizeChain [c] = sanitizeChar c := by
  unfold sanitizeChain sanitizeChar
  by_cases h1 : c = '&'
  · subst h1; rfl
  · by_cases h2 : c = '<'
    · subst h2; rfl
    · by_cases h3 : c = '>'
      · subst h3; rfl
      · by_cases h4 : c = '"'
        · subst h4; rfl
        · by_cases h5 : c = '\''
          · subst h5; rfl
          · by_cases h6 : c = '/'
            · subst h6; rfl
            · simp [replaceCharAll, h1, h2, h3, h4, h5, h6]

theorem sanitizeChain_eq_charwise (l : List Char) :
    sanitizeChain l = sanitizeCharwise l := by
  induction l with
  | nil => rfl
  | cons c rest ih =>
    have : (c :: rest) = [c] ++ rest := rfl
    rw [this, sanitizeChain_append, sanitizeChain_single, ih]
    rfl

theorem sanitizeInput_str_data (s : String) :
    (sanitizeInput (.str s)).data = sanitizeCharwise s.data :=
  sanitizeChain_eq_charwise s.data

theorem ampEscaped_entity_prepend (c : Char) (b : List Char)
    (hb : ampEscaped b = true) : ampEscaped (sanitizeChar c ++ b) = true := by
  unfold sanitizeChar
  by_cases h1 : c = '&'
  · subst h1; simp [ampEscaped, entityList, startsWithL, hb]
  · by_cases h2 : c = '<'
    · subst h2; simp [ampEscaped, entityList, startsWithL, hb]
    · by_cases h3 : c = '>'
      · subst h3; simp [ampEscaped, entityList, startsWithL, hb]
      · by_cases h4 : c = '"'
        · subst h4; simp [ampEscaped, entityList, startsWithL, hb]
        · by_cases h5 : c = '\''
          · subst h5; simp [ampEscaped, entityList, startsWithL, hb]
          · by_cases h6 : c = '/'
            · subst h6; simp [ampEscaped, entityList, startsWithL, hb]
            · simp [h1, h2, h3, h4, h5, h6, ampEscaped, hb]

theorem ampEscaped_sanitizeCharwise (l : List Char) :
    ampEscaped (sanitizeCharwise l) = true := by
  induction l with
  | nil => rfl
  | cons c rest ih =>
    show ampEscaped (sanitizeChar c ++ sanitizeCharwise rest) = true
    exact ampEscaped_entity_prepend c _ ih

theorem sanitizeCharwise_no_raw (l : List Char) (c : Char)
    (hc : c ∈ sanitizeCharwise l) :
    c ≠ '<' ∧ c ≠ '>' ∧ c ≠ '"' ∧ c ≠ '\'' := by
  induction l with
  | nil => simp [sanitizeCharwise] at hc
  | cons d rest ih =>
    have hc2 : c ∈ sanitizeChar d ++ sanitizeCharwise rest := hc
    rcases List.mem_append.mp hc2 with h | h
    · unfold sanitizeChar at h
      by_cases h1 : d = '&'
      · simp [h1] at h
        rcases h with h | h | h | h | h <;> subst h <;> exact ⟨by decide, by decide, by decide, by decide⟩
      · by_cases h2 : d = '<'
        · simp [h1, h2] at h
          rcases h with h | h | h | h <;> subst h <;> exact ⟨by decide, by decide, by decide, by decide⟩
        · by_cases h3 : d = '>'
          · simp [h1, h2, h3] at h
            rcases h with h | h | h | h <;> subst h <;> exact ⟨by decide, by decide, by decide, by decide⟩
          · by_cases h4 : d = '"'
            · simp [h1, h2, h3, h4] at h
              rcases h with h | h | h | h | h | h <;> subst h <;> exact ⟨by decide, by decide, by decide, by decide⟩
            · by_cases h5 : d = '\''
              · simp [h1, h2, h3, h4, h5] at h
                rcases h with h | h | h | h | h | h <;> subst h <;> exact ⟨by decide, by decide, by decide, by decide⟩
              · by_cases h6 : d = '/'
                · simp [h1, h2, h3, h4, h5, h6] at h
                  rcases h with h | h | h | h | h | h <;> subst h <;> exact ⟨by decide, by decide, by decide, by decide⟩
                · simp [h1, h2, h3, h4, h5, h6] at h
                  subst h
                  exact ⟨h2, h3, h4, h5⟩
    · exact ih h

theorem sanitizeCharwise_id (l : List Char)
    (h : ∀ c ∈ l, c ∉ escapedChars) : sanitizeCharwise l = l := by
  induction l with
  | nil => rfl
  | cons c rest ih =>
    have hc := h c (by simp)
    have hrest := ih (fun d hd => h d (by simp [hd]))
    show sanitizeChar c ++ sanitizeCharwise rest = c :: rest
    rw [hrest]
    unfold sanitizeChar
    simp [escapedChars] at hc
    simp [hc.1, hc.2.1, hc.2.2.1, hc.2.2.2.1, hc.2.2.2.2.1, hc.2.2.2.2.2]

/-- C1: the full cursor walks of `getAllPostsSlugs` and `getAllPostsWithDates`
do NOT terminate when the upstream keeps answering `hasNextPage = true` with
`endCursor = null`: for every iteration bound the loop is still running (the
walk re-issues the request with `after = null` forever), contradicting the
spec's termination invariant.  This theorem evaluates the code at the failing
input of the `code_bug` verdict. -/
theorem claim_C1 :
    ∀ fuel : Nat,
      getAllPostsSlugsFuel nullCursorUpstream fuel = none ∧
      getAllPostsWithDatesFuel nullCursorUpstream fuel = none := by
  intro fuel
  constructor
  · show (postsWalk nullCursorUpstream fuel none []).map _ = none
    rw [postsWalk_nullCursor_none fuel none []]
    rfl
  · exact postsWalk_nullCursor_none fuel none []

/-- C2: every Content Gateway operation maps any error of the underlying
GraphQL request to the safe empty value of its declared return type — `none`
for the single-entity lookups, `[]` for the list lookups and slug
enumerations, and the empty page envelope for `getPosts`; the fuel-bounded
walks return `[]` (wrapped in `some`, i.e. they terminate) when the request
throws. -/
theorem claim_C2 :
    ∀ (e : GqlError) (fuel : Nat) (excludeId : String),
      getPosts (.error e) = ⟨[], ⟨false, none⟩⟩ ∧
      getPostBySlug (.error e) = none ∧
      getPostsByCategory (.error e) = none ∧
      getCategories (.error e) = [] ∧
      getAuthor (.error e) = none ∧
      getTag (.error e) = none ∧
      getRelatedPosts (.error e) excludeId = [] ∧
      searchPosts (.error e) = [] ∧
      getAllPostsSlugsFuel (fun _ => .error e) (fuel + 1) = some [] ∧
      getAllPostsWithDatesFuel (fun _ => .error e) (fuel + 1) = some [] ∧
      getAllCategoriesSlugs (.error e) = [] ∧
      getAllAuthorsSlugs (.error e) = [] ∧
      getAllTagsSlugs (.error e) = [] := by
  intro e fuel excludeId
  refine ⟨rfl, rfl, rfl, rfl, rfl, rfl, rfl, rfl, rfl, rfl, rfl, rfl, rfl⟩

/-- C3 counterexample: a post whose identity equals `excludeId` under the
two different encodings IS included.  The upstream returns a post with the
opaque composite id `"cG9zdDoy"` (base64 of `post:2`, numeric identity 2)
while `excludeId` is the plain numeric string `"2"` (numeric identity 2);
the raw string filter keeps the post. -/
theorem claim_C3_counterexample :
    getRelatedPosts (Except.ok ⟨⟨[⟨"cG9zdDoy", "related"⟩], ⟨false, none⟩⟩⟩) "2"
        = [⟨"cG9zdDoy", "related"⟩] ∧
    parseGraphqlId "cG9zdDoy" = some 2 ∧
    parseGraphqlId "2" = some 2 := by
  refine ⟨by decide, by decide, by decide⟩

/-- C3 (amended): `getRelatedPosts` never includes a post whose RAW id string
equals `excludeId` (so the exclusion works whenever the upstream uses the
same encoding for `post.id` as the caller used for `excludeId`, be it the
opaque composite or the plain numeric one); a same-identity post in the
other encoding may slip through (see the counterexample).  The id decoding
is total — it cannot crash — and when the base64 decode yields no usable
`:`-separated second component it falls back to parsing the raw identifier
string. -/
theorem claim_C3 :
    (∀ (r : Except GqlError PostsData) (excludeId : String) (p : Post),
      p ∈ getRelatedPosts r excludeId → p.id ≠ excludeId) ∧
    (∀ s : String,
      (splitOnChar ':' (decodeBase64 s).data).get? 1 = none →
        parseGraphqlId s = jsParseInt s) ∧
    (∀ s : String,
      (splitOnChar ':' (decodeBase64 s).data).get? 1 = some [] →
        parseGraphqlId s = jsParseInt s) := by
  refine ⟨?_, ?_, ?_⟩
  · intro r excludeId p hp
    match r with
    | .error e => simp [getRelatedPosts] at hp
    | .ok d =>
      have := List.of_mem_filter hp
      simpa using this
  · intro s h
    unfold parseGraphqlId decodedIdSource
    rw [h]
  · intro s h
    unfold parseGraphqlId decodedIdSource
    rw [h]
    simp

/-- Witness for C3 at concrete inputs. -/
theorem claim_C3_witness :
    ("other" : String) ≠ "ex" ∧ parseGraphqlId "!!" = jsParseInt "!!" := by
  constructor
  · exact claim_C3.1 (Except.ok ⟨⟨[⟨"other", "s"⟩], ⟨false, none⟩⟩⟩) "ex"
      ⟨"other", "s"⟩ (by decide)
  · exact claim_C3.2.1 "!!" (by decide)

/-- C7 counterexample: `calculateReadingTime("word ".repeat(400))` is 3, not
2 as claimed: the trailing space makes `split(/\s+/)` produce 401 elements
(400 words plus one trailing empty string) and `ceil(401 / 200) = 3`. -/
theorem claim_C7_counterexample :
    calculateReadingTime (some wordRepeat400) ≠ 2 ∧
    calculateReadingTime (some wordRepeat400) = 3 := by
  rw [calculateReadingTime_wordRepeat400]
  exact ⟨by decide, rfl⟩

/-- C7 (amended): `calculateReadingTime(text)` is `ceil(wordCount / 200)`
with a minimum of 1 and `calculateReadingTime(undefined) = 1`, where
`wordCount` is the length of `text.split(/\s+/)` — which counts an empty
token for a leading or trailing whitespace run, so
`calculateReadingTime("word ".repeat(400)) = 3` (401 tokens), not 2. -/
theorem claim_C7 :
    calculateReadingTime none = 1 ∧
    (∀ s : String, s ≠ "" →
      (splitWs s.data).length ≤ 200 * calculateReadingTime (some s) ∧
      200 * (calculateReadingTime (some s) - 1) < (splitWs s.data).length) ∧
    (∀ c : Option String, 1 ≤ calculateReadingTime c) ∧
    calculateReadingTime (some wordRepeat400) = 3 := by
  refine ⟨rfl, ?_, ?_, calculateReadingTime_wordRepeat400⟩
  · intro s hs
    have hw := splitWs_length_pos s.data
    show (splitWs s.data).length ≤
        200 * (if s = "" then 1 else ((splitWs s.data).length + 199) / 200) ∧
      200 * ((if s = "" then 1 else ((splitWs s.data).length + 199) / 200) - 1)
        < (splitWs s.data).length
    rw [if_neg hs]
    omega
  · intro c
    match c with
    | none => exact le_rfl
    | some s =>
      have hw := splitWs_length_pos s.data
      show 1 ≤ if s = "" then 1 else ((splitWs s.data).length + 199) / 200
      by_cases hs : s = ""
      · rw [if_pos hs]
      · rw [if_neg hs]
        omega

/-- Witness for C7 at a concrete input. -/
theorem claim_C7_witness :
    (splitWs "hi there".data).length ≤ 200 * calculateReadingTime (some "hi there") :=
  (claim_C7.2.1 "hi there" (by decide)).1

theorem checkOrigins_sound (parsed : URLParts) :
    ∀ origins : List String, checkOrigins parsed origins = true →
      ∃ o ∈ origins, ∃ a, parseURLAbs o = some a ∧
        parsed.protocol = a.protocol ∧ parsed.hostname = a.hostname := by
  intro origins
  induction origins with
  | nil => intro h; simp [checkOrigins] at h
  | cons o rest ih =>
    intro h
    unfold checkOrigins at h
    match ho : parseURLAbs o with
    | none => rw [ho] at h; simp at h
    | some a =>
      rw [ho] at h
      have h2 : (if parsed.protocol = a.protocol ∧ parsed.hostname = a.hostname then true
          else checkOrigins parsed rest) = true := h
      by_cases hm : parsed.protocol = a.protocol ∧ parsed.hostname = a.hostname
      · exact ⟨o, by simp, a, ho, hm⟩
      · rw [if_neg hm] at h2
        obtain ⟨o', ho', a', ha', hm'⟩ := ih h2
        exact ⟨o', by simp [ho'], a', ha', hm'⟩

theorem parseURLWithBase_of_relative (url : String)
    (h : isRelativeRef url = true) :
    parseURLWithBase url "http://localhost" = some ⟨"http:", "localhost"⟩ := by
  unfold isRelativeRef at h
  rw [Bool.and_eq_true] at h
  obtain ⟨h1, h2⟩ := h
  unfold parseURLWithBase
  match hs : schemeSplit url.data with
  | none =>
    simp only [hs, if_false, Bool.false_eq_true]
    rw [if_neg (by simpa using h2)]
    rfl
  | some pr =>
    rw [hs] at h1
    simp only [hs]
    rw [if_neg (by simpa using h1)]
    rw [if_neg (by simpa using h2)]
    rfl

/-- C5 counterexample: `isValidRedirectUrl("/relative/path", ["https://example.com"])`
is `false`, not `true` as the claim states — the relative path resolves
against the placeholder base to `http://localhost`, which matches neither the
scheme nor the host of `https://example.com`. -/
theorem claim_C5_counterexample :
    isValidRedirectUrl "/relative/path" ["https://example.com"] = false := by
  decide

/-- C5 (amended): `isValidRedirectUrl` parses `url` against the fixed
placeholder base `http://localhost`, so a relative URL is accepted exactly
when some allowed origin has scheme `http` and host `localhost` — NOT for an
arbitrary allowed origin; it returns `true` only if the parsed URL's scheme
and host exactly match some entry of `allowedOrigins`; any parse failure
returns `false`; a cross-origin absolute URL returns `false`.  In
particular `isValidRedirectUrl("/relative/path", ["https://example.com"])`
is `false` while `isValidRedirectUrl("/relative/path", ["http://localhost"])`
is `true`. -/
theorem claim_C5 :
    (∀ (url : String) (origins : List String),
      parseURLWithBase url "http://localhost" = none →
        isValidRedirectUrl url origins = false) ∧
    (∀ (url : String) (origins : List String),
      isValidRedirectUrl url origins = true →
        ∃ parsed, parseURLWithBase url "http://localhost" = some parsed ∧
          ∃ o ∈ origins, ∃ a, parseURLAbs o = some a ∧
            parsed.protocol = a.protocol ∧ parsed.hostname = a.hostname) ∧
    (∀ url : String, isRelativeRef url = true →
      parseURLWithBase url "http://localhost" = some ⟨"http:", "localhost"⟩) ∧
    isValidRedirectUrl "/relative/path" ["https://example.com"] = false ∧
    isValidRedirectUrl "/relative/path" ["http://localhost"] = true ∧
    isValidRedirectUrl "https://evil.com/x" ["https://example.com"] = false := by
  refine ⟨?_, ?_, parseURLWithBase_of_relative, by decide, by decide, by decide⟩
  · intro url origins h
    unfold isValidRedirectUrl
    rw [h]
  · intro url origins h
    unfold isValidRedirectUrl at h
    match hp : parseURLWithBase url "http://localhost" with
    | none => rw [hp] at h; simp at h
    | some parsed =>
      rw [hp] at h
      exact ⟨parsed, rfl, checkOrigins_sound parsed origins h⟩

/-- Witness for C5 at concrete inputs. -/
theorem claim_C5_witness :
    isValidRedirectUrl "http://" ["https://example.com"] = false ∧
    parseURLWithBase "/a/b" "http://localhost" = some ⟨"http:", "localhost"⟩ := by
  constructor
  · exact claim_C5.1 "http://" ["https://example.com"] (by decide)
  · exact claim_C5.2.2.1 "/a/b" (by decide)

/-- C6 counterexample: `sanitizeInput` does not leave every character
outside the five listed ones unchanged — it ALSO escapes `'/'` (to
`&#x2F;`), a sixth substitution the claim omits. -/
theorem claim_C6_counterexample :
    sanitizeInput (.str "/") = "&#x2F;" ∧
    sanitizeInput (.str "/") ≠ "/" ∧
    '/' ∉ ['&', '<', '>', '"', '\''] := by
  refine ⟨by decide, by decide, by decide⟩

/-- C6 (amended): `sanitizeInput` escapes SIX characters — `&`, `<`, `>`,
`"`, `'` and also `/` — applied in that fixed order (ampersand first, so its
escape is not re-escaped by the later substitutions: the sequential replaces
equal a single character-wise map), leaves every character outside those six
unchanged, returns `''` for non-string input, and its output contains no raw
`<`, `>`, `"`, `'` and no unescaped bare `&` (every `&` starts one of the
emitted entities). -/
theorem claim_C6 :
    (∀ s : String, (sanitizeInput (.str s)).data = sanitizeCharwise s.data) ∧
    (∀ (s : String) (c : Char), c ∈ (sanitizeInput (.str s)).data →
      c ≠ '<' ∧ c ≠ '>' ∧ c ≠ '"' ∧ c ≠ '\'') ∧
    (∀ s : String, ampEscaped (sanitizeInput (.str s)).data = true) ∧
    (∀ s : String, (∀ c ∈ s.data, c ∉ escapedChars) → sanitizeInput (.str s) = s) ∧
    sanitizeInput .notStr = "" ∧
    sanitizeInput (.str "&<>\"'/") = "&amp;&lt;&gt;&quot;&#x27;&#x2F;" ∧
    sanitizeInput (.str "&") = "&amp;" := by
  refine ⟨sanitizeInput_str_data, ?_, ?_, ?_, rfl, by decide, by decide⟩
  · intro s c hc
    rw [sanitizeInput_str_data] at hc
    exact sanitizeCharwise_no_raw s.data c hc
  · intro s
    rw [sanitizeInput_str_data]
    exact ampEscaped_sanitizeCharwise s.data
  · intro s h
    apply String.ext
    rw [sanitizeInput_str_data]
    exact sanitizeCharwise_id s.data h

/-- Witness for C6 at concrete inputs. -/
theorem claim_C6_witness :
    sanitizeInput (.str "abc") = "abc" ∧
    ('a' ≠ '<' ∧ 'a' ≠ '>' ∧ 'a' ≠ '"' ∧ 'a' ≠ '\'') := by
  constructor
  · exact claim_C6.2.2.2.1 "abc" (by decide)
  · exact claim_C6.2.1 "abc" 'a' (by decide)

theorem isEmpty_false_of_mem {α : Type} {x : α} {l : List α} (h : x ∈ l) :
    l.isEmpty = false := by
  match l with
  | [] => simp at h
  | _ :: _ => rfl

theorem runSpecsTS_mem (vars : String → Option String) (e : EnvSpec)
    (hreq : e.required = true) (hmiss : isMissingTS (vars e.name) = true) :
    ∀ specs : List EnvSpec, e ∈ specs →
      e.name ∈ (runSpecsTS vars specs).2.2 ∧
      ∃ m, (e.name, m) ∈ (runSpecsTS vars specs).1 := by
  intro specs
  induction specs with
  | nil => intro h; simp at h
  | cons spec rest ih =>
    intro hmem
    rcases List.mem_cons.mp hmem with heq | htail
    · subst heq
      unfold runSpecsTS
      rw [if_pos hmiss, if_pos hreq]
      exact ⟨by simp, "Required environment variable missing: " ++ e.name
        ++ " (" ++ e.description ++ ")", by simp⟩
    · obtain ⟨h1, m, h2⟩ := ih htail
      unfold runSpecsTS
      by_cases hm : isMissingTS (vars spec.name)
      · rw [if_pos hm]
        by_cases hr : spec.required
        · rw [if_pos hr]
          exact ⟨by simp [h1], m, by simp [h2]⟩
        · rw [if_neg hr]
          exact ⟨h1, m, h2⟩
      · rw [if_neg hm]
        by_cases hv : spec.validate ((vars spec.name).getD "")
        · rw [if_pos hv]
          exact ⟨h1, m, h2⟩
        · rw [if_neg hv]
          exact ⟨h1, m, by simp [h2]⟩

theorem runSpecsJS_mem (vars : String → Option String) (e : EnvSpec)
    (hreq : e.required = true) (hmiss : isMissingJS (vars e.name) = true) :
    ∀ specs : List EnvSpec, e ∈ specs →
      e.name ∈ (runSpecsJS vars specs).2.2 := by
  intro specs
  induction specs with
  | nil => intro h; simp at h
  | cons spec rest ih =>
    intro hmem
    rcases List.mem_cons.mp hmem with heq | htail
    · subst heq
      unfold runSpecsJS
      rw [if_pos (by simp [hreq, hmiss])]
      simp
    · have h1 := ih htail
      unfold runSpecsJS
      by_cases hc1 : spec.required && isMissingJS (vars spec.name)
      · rw [if_pos hc1]; simp [h1]
      · rw [if_neg hc1]
        by_cases hc2 : !spec.required && isMissingJS (vars spec.name)
        · rw [if_pos hc2]; exact h1
        · rw [if_neg hc2]
          by_cases hv : spec.validate ((vars spec.name).getD "")
          · rw [if_pos hv]; exact h1
          · rw [if_neg hv]; exact h1

theorem runSpecsTS_mask (vars : String → Option String) :
    ∀ specs : List EnvSpec,
      runSpecsTS vars (maskValidators isMissingTS vars specs)
        = runSpecsTS vars specs := by
  intro specs
  induction specs with
  | nil => rfl
  | cons spec rest ih =>
    show runSpecsTS vars
        ((if isMissingTS (vars spec.name) then
            { spec with validate := fun _ => false } else spec)
          :: maskValidators isMissingTS vars rest)
      = _
    by_cases hm : isMissingTS (vars spec.name)
    · rw [if_pos hm]
      unfold runSpecsTS
      rw [ih]
      simp only [hm, if_true]
    · rw [if_neg hm]
      unfold runSpecsTS
      rw [ih]

theorem runSpecsJS_mask (vars : String → Option String) :
    ∀ specs : List EnvSpec,
      runSpecsJS vars (maskValidators isMissingJS vars specs)
        = runSpecsJS vars specs := by
  intro specs
  induction specs with
  | nil => rfl
  | cons spec rest ih =>
    show runSpecsJS vars
        ((if isMissingJS (vars spec.name) then
            { spec with validate := fun _ => false } else spec)
          :: maskValidators isMissingJS vars rest)
      = _
    by_cases hm : isMissingJS (vars spec.name)
    · rw [if_pos hm]
      unfold runSpecsJS
      rw [ih]
      by_cases hr : spec.required
      · simp [hm, hr]
      · have hr2 : spec.required = false := by simpa using hr
        simp only [hm, hr2]
        rfl
    · rw [if_neg hm]
      unfold runSpecsJS
      rw [ih]

/-- C4 counterexample: against the empty environment, the build-script
version of `validateEnvVars` leaves `errors` EMPTY — in particular no entry
for the required-and-missing `WPGRAPHQL_ENDPOINT` — even though the claim
demands an `errors` entry for every required missing variable; the variable
appears only in `missingVariables` (with `isValid = false`). -/
theorem claim_C4_counterexample :
    (validateEnvVarsJS REQUIRED_ENV_VARS_JS emptyEnv).errors = [] ∧
    "WPGRAPHQL_ENDPOINT" ∈
      (validateEnvVarsJS REQUIRED_ENV_VARS_JS emptyEnv).missingVariables ∧
    (validateEnvVarsJS REQUIRED_ENV_VARS_JS emptyEnv).isValid = false := by
  refine ⟨by decide, by decide, by decide⟩

/-- C4 (amended): in the TypeScript `validateEnvVars`, every entry with
`required = true` whose value is absent/empty is placed in BOTH
`missingVariables` and `errors` and forces `isValid = false`; in the
build-script JavaScript version such an entry is placed ONLY in
`missingVariables` (never in `errors`), with `isValid` still `false`.  In
both versions the failing entry's validator is never invoked (the result is
unchanged if every missing entry's validator is replaced), and all failing
variables are collected in one pass without short-circuiting (the statements
hold for EVERY such member of the spec list simultaneously). -/
theorem claim_C4 :
    (∀ (specs : List EnvSpec) (vars : String → Option String) (e : EnvSpec),
      e ∈ specs → e.required = true → isMissingTS (vars e.name) = true →
        e.name ∈ (validateEnvVarsTS specs vars).missingVariables ∧
        (∃ m, (e.name, m) ∈ (validateEnvVarsTS specs vars).errors) ∧
        (validateEnvVarsTS specs vars).isValid = false) ∧
    (∀ (specs : List EnvSpec) (vars : String → Option String) (e : EnvSpec),
      e ∈ specs → e.required = true → isMissingJS (vars e.name) = true →
        e.name ∈ (validateEnvVarsJS specs vars).missingVariables ∧
        (validateEnvVarsJS specs vars).isValid = false) ∧
    (∀ (specs : List EnvSpec) (vars : String → Option String),
      validateEnvVarsTS (maskValidators isMissingTS vars specs) vars
        = validateEnvVarsTS specs vars) ∧
    (∀ (specs : List EnvSpec) (vars : String → Option String),
      validateEnvVarsJS (maskValidators isMissingJS vars specs) vars
        = validateEnvVarsJS specs vars) := by
  refine ⟨?_, ?_, ?_, ?_⟩
  · intro specs vars e hmem hreq hmiss
    obtain ⟨h1, m, h2⟩ := runSpecsTS_mem vars e hreq hmiss specs hmem
    exact ⟨h1, ⟨m, h2⟩, isEmpty_false_of_mem h2⟩
  · intro specs vars e hmem hreq hmiss
    have h1 := runSpecsJS_mem vars e hreq hmiss specs hmem
    refine ⟨h1, ?_⟩
    show ((runSpecsJS vars specs).1.isEmpty
      && (runSpecsJS vars specs).2.2.isEmpty) = false
    rw [isEmpty_false_of_mem h1]
    simp
  · intro specs vars
    unfold validateEnvVarsTS
    rw [runSpecsTS_mask]
  · intro specs vars
    unfold validateEnvVarsJS
    rw [runSpecsJS_mask]

/-- Witness for C4 at concrete inputs: the first TS table entry
(`WPGRAPHQL_ENDPOINT`, required) against the empty environment. -/
theorem claim_C4_witness :
    "WPGRAPHQL_ENDPOINT" ∈
      (validateEnvVarsTS REQUIRED_ENV_VARS_TS emptyEnv).missingVariables ∧
    (validateEnvVarsTS REQUIRED_ENV_VARS_TS emptyEnv).isValid = false := by
  have h := claim_C4.1 REQUIRED_ENV_VARS_TS emptyEnv
    ⟨"WPGRAPHQL_ENDPOINT", true, isUrlShaped,
      "Must be a valid URL to WordPress GraphQL endpoint",
      "WordPress GraphQL API endpoint URL"⟩
    (List.mem_cons_self _ _) rfl rfl
  exact ⟨h.1, h.2.2⟩

theorem formatCacheControl_split (c : CacheConfig) :
    formatCacheControl c = cacheBase c ∨
    ∃ n, c.staleIfError = some n ∧
      (formatCacheControl c).data
        = (cacheBase c).data ++ (", stale-if-error=" ++ toString n).data := by
  match hse : c.staleIfError with
  | none =>
    left
    unfold formatCacheControl cacheBase
    rw [hse]
    rfl
  | some n =>
    match n with
    | 0 =>
      left
      unfold formatCacheControl cacheBase
      rw [hse]
      rfl
    | m + 1 =>
      right
      refine ⟨m + 1, rfl, ?_⟩
      unfold formatCacheControl cacheBase
      rw [hse]
      show (joinCommaSp (_ ++ [_])).data = _
      simp [joinCommaSp, List.append_assoc]

/-- C8: `formatCacheControl` renders
`public, max-age=…, s-maxage=…, stale-while-revalidate=…`, with a
`, stale-if-error=…` clause appended only when `staleIfError` is present (per
the JS truthiness test, a present zero also omits it); on the fixed table the
asset class yields exactly the year-long string with no `stale-if-error`
clause, and the page class yields all four clauses
(3600, 86400, 604800, 2592000). -/
theorem claim_C8 :
    (∀ c : CacheConfig,
      formatCacheControl c = cacheBase c ∨
      ∃ n, c.staleIfError = some n ∧
        (formatCacheControl c).data
          = (cacheBase c).data ++ (", stale-if-error=" ++ toString n).data) ∧
    formatCacheControl CACHE_CONFIGS_assets
      = "public, max-age=31536000, s-maxage=31536000, stale-while-revalidate=31536000" ∧
    containsSub "max-age=31536000".data
      (formatCacheControl CACHE_CONFIGS_assets).data = true ∧
    containsSub "stale-if-error".data
      (formatCacheControl CACHE_CONFIGS_assets).data = false ∧
    formatCacheControl CACHE_CONFIGS_html
      = "public, max-age=3600, s-maxage=86400, stale-while-revalidate=604800, stale-if-error=2592000" := by
  refine ⟨formatCacheControl_split, by decide, by decide, by decide, by decide⟩

theorem middleware_cacheControl (base : String → Option String) (pathname : String) :
    middleware base pathname "Cache-Control" = some (cacheControlFor pathname) := by
  unfold middleware cacheControlFor
  by_cases h1 : isAssetPath pathname
  · simp [h1, setHeader]
  · by_cases h2 : startsWithL pathname.data "/api/".data
    · simp [h1, h2, setHeader]
    · simp [h1, h2, setHeader]

theorem middleware_sec_header (base : String → Option String) (pathname : String)
    (kv : String × String) (hkv : kv ∈ SECURITY_HEADERS)
    (hcc : kv.1 ≠ "Cache-Control") :
    middleware base pathname kv.1 = some kv.2 := by
  have hsec : (SECURITY_HEADERS.foldl (fun h kv => setHeader h kv.1 kv.2) base) kv.1
      = some kv.2 := by
    fin_cases hkv <;> simp [SECURITY_HEADERS, setHeader]
  unfold middleware
  by_cases h1 : isAssetPath pathname
  · simpa [h1, setHeader, hcc] using hsec
  · by_cases h2 : startsWithL pathname.data "/api/".data
    · simpa [h1, h2, setHeader, hcc] using hsec
    · simpa [h1, h2, setHeader, hcc] using hsec

/-- C9: every request's response carries an entry for each of the
`SECURITY_HEADERS` keys; all of them except `Cache-Control` keep exactly the
configured value; the final `Cache-Control` is always one of exactly three
path-determined strings (asset-extension / `/api/` prefix / everything
else); and the `Cache-Control` entry inside `SECURITY_HEADERS` itself is
always overwritten — on a non-asset path it never survives to the final
response. -/
theorem claim_C9 :
    ∀ (base : String → Option String) (pathname : String),
      (∀ kv ∈ SECURITY_HEADERS, ∃ v, middleware base pathname kv.1 = some v) ∧
      (∀ kv ∈ SECURITY_HEADERS, kv.1 ≠ "Cache-Control" →
        middleware base pathname kv.1 = some kv.2) ∧
      middleware base pathname "Cache-Control" = some (cacheControlFor pathname) ∧
      (cacheControlFor pathname = "public, max-age=31536000, immutable" ∨
       cacheControlFor pathname = "public, max-age=300, s-maxage=300" ∨
       cacheControlFor pathname = "public, max-age=3600, s-maxage=86400") ∧
      (isAssetPath pathname = false →
        middleware base pathname "Cache-Control"
          ≠ some "public, max-age=31536000, immutable") := by
  intro base pathname
  refine ⟨?_, middleware_sec_header base pathname, middleware_cacheControl base pathname, ?_, ?_⟩
  · intro kv hkv
    by_cases hcc : kv.1 = "Cache-Control"
    · exact ⟨cacheControlFor pathname, by rw [hcc]; exact middleware_cacheControl base pathname⟩
    · exact ⟨kv.2, middleware_sec_header base pathname kv hkv hcc⟩
  · unfold cacheControlFor
    by_cases h1 : isAssetPath pathname
    · simp [h1]
    · by_cases h2 : startsWithL pathname.data "/api/".data
      · simp [h1, h2]
      · simp [h1, h2]
  · intro hna
    rw [middleware_cacheControl base pathname]
    unfold cacheControlFor
    rw [hna]
    by_cases h2 : startsWithL pathname.data "/api/".data
    · simp [h2]
    · simp [h2]

/-- Witness for C9 at concrete inputs. -/
theorem claim_C9_witness :
    middleware (fun _ => none) "/about" "X-Frame-Options" = some "DENY" ∧
    middleware (fun _ => none) "/about" "Cache-Control"
      ≠ some "public, max-age=31536000, immutable" := by
  constructor
  · exact (claim_C9 (fun _ => none) "/about").2.1 ("X-Frame-Options", "DENY")
      (by decide) (by decide)
  · exact (claim_C9 (fun _ => none) "/about").2.2.2.2 (by decide)

theorem containsSub_append_right (pat a b : List Char)
    (h : containsSub pat b = true) : containsSub pat (a ++ b) = true := by
  induction a with
  | nil => exact h
  | cons c rest ih =>
    show (startsWithL (c :: (rest ++ b)) pat || containsSub pat (rest ++ b)) = true
    rw [ih]
    simp

set_option maxRecDepth 4000 in
/-- C10: for every nonce argument (absent, empty or non-empty),
`buildCSPHeader` maps the `process.env.WPGRAPHQL_ENDPOINT` source to itself
(the env placeholder is never substituted), and the produced header string
still contains the literal token `process.env.WPGRAPHQL_ENDPOINT` (inside
its `connect-src` directive). -/
theorem claim_C10 :
    ∀ nonce : Option String,
      substSource nonce "process.env.WPGRAPHQL_ENDPOINT"
        = "process.env.WPGRAPHQL_ENDPOINT" ∧
      containsSub "process.env.WPGRAPHQL_ENDPOINT".data
        (buildCSPHeader CSP_HEADERS nonce).data = true := by
  intro nonce
  match nonce with
  | none => exact ⟨rfl, by decide⟩
  | some n =>
    refine ⟨rfl, ?_⟩
    show containsSub "process.env.WPGRAPHQL_ENDPOINT".data
      (renderDirective (some n)
        ("script-src",
          ["'self'", "'nonce-{NONCE}'", "https://www.googletagmanager.com",
           "https://www.google-analytics.com", "https://cdn.jsdelivr.net"])
        ++ ("; ".data
          ++ joinSepL "; ".data ((CSP_HEADERS.drop 1).map (renderDirective none)))) = true
    apply containsSub_append_right
    decide

end UsNews
